import Mathlib

/-!
Verification of the Snap-and-sell point-of-sale backend (`src/backend/server.py`)
against its natural-language specification.

Modelling conventions:
* Python floats holding money are modelled as exact rationals (`ℚ`).
* Python `round(x, 2)` is banker's rounding (round half to even) on the decimal
  value, modelled by `round2` below.
* MongoDB collections are modelled as Lean lists of documents; `_id` values are
  `Nat` and are assigned from a `nextId` counter on insert.  A Mongo `UpdateOne`
  with an `_id` filter touches the unique matching document, which (since `_id`
  is unique in Mongo) coincides with mapping the update over all matches.
* A handler raising `HTTPException` before any write is modelled by an
  `Except ApiErr` result whose `.error` case carries no new state: the store is
  untouched.
* The `try/except Exception` wrappers in the Python handlers catch the
  handler's own `HTTPException`s (FastAPI's `HTTPException` derives from
  `Exception`) and re-raise them as status 400 with `str(e)` as the detail;
  `wrap400` models this.  `create_return`/`create_exchange` instead re-raise
  `HTTPException` unchanged, so their 404s survive.
* Password hashing is an external collaborator; `signup` takes the digest
  function as a parameter.
-/

set_option allowUnsafeReducibility true
attribute [local semireducible] Rat.add Rat.mul Rat.sub Rat.div Rat.inv Rat.neg
attribute [local semireducible] Rat.normalize Rat.ofScientific

namespace SnapSell

/-- Round half to even on integers: Python `round` applied to the exact value
`x`, used at scale 100 for two-decimal rounding. -/
def roundHalfEven (x : ℚ) : ℤ :=
  let f : ℤ := ⌊x⌋
  let r : ℚ := x - (f : ℚ)
  if r < 1/2 then f
  else if 1/2 < r then f + 1
  else if f % 2 = 0 then f else f + 1

/-- Python `round(x, 2)`: round half to even at two decimals.  CPython rounds
the decimal value of the binary64 float; this model rounds the exact rational.
The two coincide whenever the argument is a dyadic rational exactly
representable in binary64 (then the float *is* the exact value, and a decimal
tie is a tie for both).  Concrete inputs exhibited below are chosen so that
every intermediate of the settlement arithmetic (sums, divisions, products,
differences) is such a dyadic rational, making the model's arithmetic equal
to the program's float arithmetic at those inputs. -/
def round2 (x : ℚ) : ℚ := (roundHalfEven (x * 100) : ℚ) / 100

/-- One line of a sale (`SaleItem` pydantic model).  The three trailing fields
are `Optional` in the request and are overwritten by `create_sale`'s discount
allocation. -/
structure SaleItem where
  productId : Nat
  productName : String
  quantity : Int
  price : ℚ
  image : String
  size : String
  itemTotal : Option ℚ
  discountAmount : Option ℚ
  finalPaidAmount : Option ℚ
deriving DecidableEq

/-- A sale request (`Sale` pydantic model); `timestamp`/`date` are always
overwritten by the handler and are omitted. -/
structure SaleReq where
  items : List SaleItem
  total : ℚ
  paymentMethod : String
  originalTotal : Option ℚ
  discountType : Option String
  discountValue : Option ℚ
  discountAmount : Option ℚ
  customerPhone : Option String
deriving DecidableEq

/-- A persisted sale document. -/
structure SaleDoc where
  id : Nat
  businessId : Nat
  items : List SaleItem
  total : ℚ
  paymentMethod : String
  date : String
  originalTotal : Option ℚ
  discountType : Option String
  discountValue : Option ℚ
  discountAmount : Option ℚ
  customerPhone : Option String
deriving DecidableEq

/-- One line of a return (`ReturnItem` pydantic model). -/
structure ReturnItem where
  productId : Nat
  productName : String
  quantity : Int
  price : ℚ
  size : String
  finalPaidPrice : Option ℚ
deriving DecidableEq

/-- A return request (`Return` pydantic model); stamped fields omitted. -/
structure ReturnReq where
  originalSaleId : Nat
  items : List ReturnItem
  returnTotal : ℚ
  reason : String
  type : String
  exchangeSaleId : Option Nat
deriving DecidableEq

/-- A persisted return document, including the denormalized
`originalPaymentMethod` copied from the original sale. -/
structure ReturnDoc where
  id : Nat
  businessId : Nat
  originalSaleId : Nat
  originalPaymentMethod : String
  items : List ReturnItem
  returnTotal : ℚ
  reason : String
  type : String
  exchangeSaleId : Option Nat
  date : String
deriving DecidableEq

/-- A product document (the fields the settlement engine touches). -/
structure ProductDoc where
  id : Nat
  businessId : Nat
  name : String
  price : ℚ
  stock : Int
deriving DecidableEq

/-- A settings document. -/
structure SettingsDoc where
  id : Nat
  businessId : Nat
  shopName : String
  ownerName : String
  upiId : String
  setupCompleted : Bool
deriving DecidableEq

/-- The `Settings` pydantic request model; `setupCompleted` defaults to `True`
but is client-suppliable. -/
structure SettingsReq where
  shopName : String
  ownerName : String
  upiId : String
  setupCompleted : Bool
deriving DecidableEq

/-- A user document. -/
structure UserDoc where
  id : Nat
  username : String
  password : String
  businessId : Nat
deriving DecidableEq

/-- A business document. -/
structure BusinessDoc where
  id : Nat
  name : String
deriving DecidableEq

/-- The whole document store; `nextId` supplies fresh `_id`s. -/
structure DB where
  businesses : List BusinessDoc
  users : List UserDoc
  settings : List SettingsDoc
  products : List ProductDoc
  sales : List SaleDoc
  returns : List ReturnDoc
  nextId : Nat
deriving DecidableEq

/-- An HTTP error (`HTTPException(status_code, detail)`). -/
structure ApiErr where
  status : Nat
  detail : String
deriving DecidableEq

deriving instance DecidableEq for Except

/-- `str(e)` of a Starlette `HTTPException`, used when an outer
`except Exception` re-wraps it. -/
def ApiErr.str (e : ApiErr) : String := toString e.status ++ ": " ++ e.detail

/-- Models `try: ... except Exception as e: raise HTTPException(400, str(e))`
around a body whose only exceptions are `HTTPException`s. -/
def wrap400 {α : Type} (r : Except ApiErr α) : Except ApiErr α :=
  match r with
  | .error e => .error ⟨400, e.str⟩
  | .ok a => .ok a

/-- Python `str.lower` on one ASCII character. -/
def pyLowerChar (c : Char) : Char :=
  if 65 ≤ c.toNat ∧ c.toNat ≤ 90 then Char.ofNat (c.toNat + 32) else c

/-- Python `str.lower` (ASCII fragment). -/
def pyLower (s : String) : String := ⟨s.data.map pyLowerChar⟩

/-- Python `str.isspace` for the characters `str.strip` removes. -/
def pyIsSpace (c : Char) : Bool :=
  c.toNat == 32 || c.toNat == 9 || c.toNat == 10 || c.toNat == 13 ||
    c.toNat == 11 || c.toNat == 12

/-- Python `str.strip()`: drop whitespace from both ends. -/
def pyStrip (s : String) : String :=
  ⟨((s.data.dropWhile pyIsSpace).reverse.dropWhile pyIsSpace).reverse⟩

/-- `not phone or not phone.strip()`: the customer phone is missing or blank. -/
def blankPhone : Option String → Bool
  | none => true
  | some s => s == "" || pyStrip s == ""

/-- Sum of `price * quantity` over sale items: the handler's `original_total`. -/
def computedOriginalTotal (items : List SaleItem) : ℚ :=
  (items.map (fun it => it.price * (it.quantity : ℚ))).sum

/-- The body of `create_sale`'s per-item discount-distribution loop: stamps
`itemTotal`, and when both the computed original total and the discount are
positive, the proportional rounded discount and the rounded final paid amount
computed from the **unrounded** per-line discount. -/
def allocItem (originalTotal discountAmount : ℚ) (it : SaleItem) : SaleItem :=
  let itemTotal := it.price * (it.quantity : ℚ)
  if originalTotal > 0 ∧ discountAmount > 0 then
    { it with
      itemTotal := some itemTotal
      discountAmount := some (round2 (itemTotal / originalTotal * discountAmount))
      finalPaidAmount := some (round2 (itemTotal - itemTotal / originalTotal * discountAmount)) }
  else
    { it with
      itemTotal := some itemTotal
      discountAmount := some 0
      finalPaidAmount := some itemTotal }

/-- The per-item discount-distribution loop of `create_sale` (it is also
`§4.3 Discount Allocator` of the spec). -/
def allocateItems (originalTotal discountAmount : ℚ) (items : List SaleItem) :
    List SaleItem :=
  items.map (allocItem originalTotal discountAmount)

/-- One `UpdateOne({_id, businessId}, {$inc: {stock: delta}})`. -/
def incStock (businessId : Nat) (productId : Nat) (delta : Int)
    (ps : List ProductDoc) : List ProductDoc :=
  ps.map (fun p =>
    if p.id == productId && p.businessId == businessId then
      { p with stock := p.stock + delta }
    else p)

/-- The bulk stock decrement of `create_sale` (one `$inc` of `-quantity` per
sale item). -/
def applySaleDecs (businessId : Nat) (items : List SaleItem)
    (ps : List ProductDoc) : List ProductDoc :=
  items.foldl (fun acc it => incStock businessId it.productId (-it.quantity) acc) ps

/-- The bulk stock increment of `create_return`/`create_exchange` (one `$inc`
of `+quantity` per returned item). -/
def applyReturnIncs (businessId : Nat) (items : List ReturnItem)
    (ps : List ProductDoc) : List ProductDoc :=
  items.foldl (fun acc it => incStock businessId it.productId it.quantity acc) ps

/-- The error raised for a credit sale without a usable phone number. -/
def phoneErr : ApiErr :=
  ⟨400, "Customer phone number is required for credit sales"⟩

/-- `POST /api/sales` (`create_sale`): validates the credit-sale phone, runs
the discount distribution, decrements stock per item, and persists the sale.
`today` stands for `datetime.now(...).strftime(Y-m-d)`. -/
def create_sale (businessId : Nat) (today : String) (sale : SaleReq) (db : DB) :
    Except ApiErr (DB × SaleDoc) :=
  if pyLower sale.paymentMethod == "credit" && blankPhone sale.customerPhone then
    .error phoneErr
  else
    let originalTotal := computedOriginalTotal sale.items
    let discountAmount := (sale.discountAmount.getD 0)
    let storedOriginalTotal : ℚ :=
      match sale.originalTotal with
      | none => originalTotal
      | some v => if v = 0 then originalTotal else v
    let items := allocateItems originalTotal discountAmount sale.items
    let doc : SaleDoc :=
      { id := db.nextId
        businessId := businessId
        items := items
        total := sale.total
        paymentMethod := sale.paymentMethod
        date := today
        originalTotal := some storedOriginalTotal
        discountType := sale.discountType
        discountValue := sale.discountValue
        discountAmount := sale.discountAmount
        customerPhone := sale.customerPhone }
    let products := applySaleDecs businessId items db.products
    .ok ({ db with products := products
                   sales := db.sales ++ [doc]
                   nextId := db.nextId + 1 }, doc)

/-- `GET /api/products/{product_id}` before the `except Exception` wrapper:
`find_one({_id, businessId})`, 404 when nothing matches. -/
def get_product_inner (businessId : Nat) (productId : Nat) (db : DB) :
    Except ApiErr ProductDoc :=
  match db.products.find? (fun p => p.id == productId && p.businessId == businessId) with
  | none => .error ⟨404, "Product not found"⟩
  | some p => .ok p

/-- `GET /api/products/{product_id}` (`get_product`): the whole body sits in a
`try/except Exception` that re-raises anything — the handler's own 404
included — as status 400 with `str(e)`. -/
def get_product (businessId : Nat) (productId : Nat) (db : DB) :
    Except ApiErr ProductDoc :=
  wrap400 (get_product_inner businessId productId db)

/-- The response of `POST /api/auth/signup`: a message and identifiers only,
no access token field exists. -/
structure SignupResponse where
  message : String
  userId : Nat
  businessId : Nat
deriving DecidableEq

/-- `POST /api/auth/signup` (`signup`): reject an existing username, else
create one business, one user linked to it (password run through the opaque
digest function `hashFn`), and one settings row with `setupCompleted = false`.
No token is issued. -/
def signup (hashFn : String → String) (username password businessName : String)
    (db : DB) : Except ApiErr (DB × SignupResponse) :=
  if db.users.any (fun u => u.username == username) then
    .error ⟨400, "Username already exists"⟩
  else
    let business : BusinessDoc := ⟨db.nextId, businessName⟩
    let user : UserDoc := ⟨db.nextId + 1, username, hashFn password, business.id⟩
    let settingsRow : SettingsDoc :=
      ⟨db.nextId + 2, business.id, businessName, "", "", false⟩
    .ok ({ db with businesses := db.businesses ++ [business]
                   users := db.users ++ [user]
                   settings := db.settings ++ [settingsRow]
                   nextId := db.nextId + 3 },
         ⟨"Account created successfully. Please sign in.", user.id, business.id⟩)

/-- `POST /api/settings/setup` (`create_setup`): if a settings row exists for
the business, `$set` the full request dict on it — `setupCompleted`
included — else insert a new row carrying the request's `setupCompleted`
(whose pydantic default is `True`).  Returns the stored row. -/
def create_setup (businessId : Nat) (req : SettingsReq) (db : DB) :
    DB × SettingsDoc :=
  match db.settings.find? (fun s => s.businessId == businessId) with
  | some s0 =>
    let upd := fun s : SettingsDoc =>
      { s with shopName := req.shopName, ownerName := req.ownerName,
               upiId := req.upiId, setupCompleted := req.setupCompleted }
    ({ db with settings := db.settings.map (fun s =>
        if s.businessId == businessId then upd s else s) },
     upd s0)
  | none =>
    let row : SettingsDoc :=
      ⟨db.nextId, businessId, req.shopName, req.ownerName, req.upiId,
       req.setupCompleted⟩
    ({ db with settings := db.settings ++ [row], nextId := db.nextId + 1 }, row)

/-- `PUT /api/settings/{settings_id}` before its `except Exception` wrapper:
the update dict pops `setupCompleted`, so only the other fields are `$set`. -/
def update_settings_inner (businessId : Nat) (settingsId : Nat)
    (req : SettingsReq) (db : DB) : Except ApiErr (DB × SettingsDoc) :=
  match db.settings.find? (fun s => s.id == settingsId && s.businessId == businessId) with
  | none => .error ⟨404, "Settings not found"⟩
  | some s0 =>
    let upd := fun s : SettingsDoc =>
      { s with shopName := req.shopName, ownerName := req.ownerName,
               upiId := req.upiId }
    .ok ({ db with settings := db.settings.map (fun s =>
            if s.id == settingsId && s.businessId == businessId then upd s else s) },
         upd s0)

/-- `PUT /api/settings/{settings_id}` (`update_settings`), with the
`except Exception` wrapper that turns its own 404 into a 400. -/
def update_settings (businessId : Nat) (settingsId : Nat) (req : SettingsReq)
    (db : DB) : Except ApiErr (DB × SettingsDoc) :=
  wrap400 (update_settings_inner businessId settingsId req db)

/-- `POST /api/returns` (`create_return`): requires `originalSaleId` to
resolve within the business (this handler re-raises `HTTPException`
unchanged, so the 404 survives), denormalizes `originalPaymentMethod`,
increments stock for every returned line, and persists the request's items
and `returnTotal` exactly as sent. -/
def create_return (businessId : Nat) (today : String) (req : ReturnReq)
    (db : DB) : Except ApiErr (DB × ReturnDoc) :=
  match db.sales.find? (fun s => s.id == req.originalSaleId && s.businessId == businessId) with
  | none => .error ⟨404, "Original sale not found"⟩
  | some originalSale =>
    let doc : ReturnDoc :=
      { id := db.nextId
        businessId := businessId
        originalSaleId := req.originalSaleId
        originalPaymentMethod := originalSale.paymentMethod
        items := req.items
        returnTotal := req.returnTotal
        reason := req.reason
        type := req.type
        exchangeSaleId := req.exchangeSaleId
        date := today }
    let products := applyReturnIncs businessId req.items db.products
    .ok ({ db with products := products
                   returns := db.returns ++ [doc]
                   nextId := db.nextId + 1 }, doc)

/-- The response bundle of `POST /api/exchanges`. -/
structure ExchangeResult where
  ret : ReturnDoc
  newSale : SaleDoc
  returnTotal : ℚ
  newSaleTotal : ℚ
  priceDifference : ℚ
deriving DecidableEq

/-- `POST /api/exchanges` (`create_exchange`): requires the original sale to
resolve within the business; computes `returnTotal = Σ price*quantity` over
the returned items; increments stock for them; then stamps `businessId`,
`timestamp` and `date` on `new_sale.dict()` **as sent** — there is no
credit-phone validation and no discount allocation here — decrements stock
for its items, inserts it, and persists the return record of
`type="exchange"` linked to it. -/
def create_exchange (businessId : Nat) (today : String) (originalSaleId : Nat)
    (returnItems : List ReturnItem) (newSale : SaleReq) (db : DB) :
    Except ApiErr (DB × ExchangeResult) :=
  match db.sales.find? (fun s => s.id == originalSaleId && s.businessId == businessId) with
  | none => .error ⟨404, "Original sale not found"⟩
  | some originalSale =>
    let returnTotal : ℚ :=
      (returnItems.map (fun it => it.price * (it.quantity : ℚ))).sum
    let products1 := applyReturnIncs businessId returnItems db.products
    let newSaleDoc : SaleDoc :=
      { id := db.nextId
        businessId := businessId
        items := newSale.items
        total := newSale.total
        paymentMethod := newSale.paymentMethod
        date := today
        originalTotal := newSale.originalTotal
        discountType := newSale.discountType
        discountValue := newSale.discountValue
        discountAmount := newSale.discountAmount
        customerPhone := newSale.customerPhone }
    let products2 := applySaleDecs businessId newSale.items products1
    let retDoc : ReturnDoc :=
      { id := db.nextId + 1
        businessId := businessId
        originalSaleId := originalSaleId
        originalPaymentMethod := originalSale.paymentMethod
        items := returnItems
        returnTotal := returnTotal
        reason := "Exchange"
        type := "exchange"
        exchangeSaleId := some newSaleDoc.id
        date := today }
    .ok ({ db with products := products2
                   sales := db.sales ++ [newSaleDoc]
                   returns := db.returns ++ [retDoc]
                   nextId := db.nextId + 2 },
         { ret := retDoc
           newSale := newSaleDoc
           returnTotal := returnTotal
           newSaleTotal := newSale.total
           priceDifference := newSale.total - returnTotal })

/-- Byte-lexicographic string order, as MongoDB compares the `date` strings of
the `$gte`/`$lte` range (agrees with codepoint order on ASCII dates). -/
def charListLe : List Char → List Char → Bool
  | [], _ => true
  | _ :: _, [] => false
  | a :: as, b :: bs =>
    if a.toNat < b.toNat then true
    else if b.toNat < a.toNat then false
    else charListLe as bs

/-- `a <= b` on date strings. -/
def strLe (a b : String) : Bool := charListLe a.data b.data

/-- The distinct values of a list in first-occurrence order: the keys a Mongo
`$group` stage produces (one output document per distinct key; we fix the
otherwise unspecified order to first occurrence). -/
def keysAux : List String → List String
  | [] => []
  | k :: ks => k :: (keysAux ks).filter (fun x => x ≠ k)

/-- `$group {_id: "$paymentMethod", total: {$sum: "$total"}, count: {$sum: 1}}`
over the in-range sales: per distinct raw payment method, its gross total and
transaction count. -/
def salesGroups (l : List SaleDoc) : List (String × ℚ × Nat) :=
  (keysAux (l.map (fun s => s.paymentMethod))).map (fun k =>
    let g := l.filter (fun s => s.paymentMethod == k)
    (k, (g.map (fun s => s.total)).sum, g.length))

/-- `$group {_id: "$originalPaymentMethod", total: {$sum: "$returnTotal"}, ...}`
over the in-range returns. -/
def retGroups (l : List ReturnDoc) : List (String × ℚ × Nat) :=
  (keysAux (l.map (fun r => r.originalPaymentMethod))).map (fun k =>
    let g := l.filter (fun r => r.originalPaymentMethod == k)
    (k, (g.map (fun r => r.returnTotal)).sum, g.length))

/-- `(method or "other").lower()` — the empty string stands for a null/absent
method and folds into the `other` bucket. -/
def lowerKey (m : String) : String := if m == "" then "other" else pyLower m

/-- Assignment into an insertion-ordered Python dict. -/
def dictInsert {β : Type} : List (String × β) → String → β → List (String × β)
  | [], k, v => [(k, v)]
  | (k0, v0) :: rest, k, v =>
    if k0 == k then (k0, v) :: rest else (k0, v0) :: dictInsert rest k v

/-- `d.get(k, dflt)` on an insertion-ordered Python dict. -/
def dictGetD {β : Type} : List (String × β) → String → β → β
  | [], _, dflt => dflt
  | (k0, v0) :: rest, k, dflt => if k0 == k then v0 else dictGetD rest k dflt

/-- The `returns_by_method` dict: return-group totals keyed by the lowered
method (a later group with the same lowered key overwrites an earlier one). -/
def returnsByMethod (groups : List (String × ℚ × Nat)) : List (String × ℚ) :=
  groups.foldl (fun d g => dictInsert d (lowerKey g.1) g.2.1) []

/-- `total_returns`: the sum of all return-group totals. -/
def totalReturnsOf (groups : List (String × ℚ × Nat)) : ℚ :=
  (groups.map (fun g => g.2.1)).sum

/-- One `breakdown` entry of the summary. -/
structure BEntry where
  gross : ℚ
  returns : ℚ
  net : ℚ
  count : Nat
deriving DecidableEq

/-- The response of `GET /api/sales/summary`. -/
structure Summary where
  grossSales : ℚ
  totalReturns : ℚ
  netSales : ℚ
  cashTotal : ℚ
  upiTotal : ℚ
  cardTotal : ℚ
  creditTotal : ℚ
  otherTotal : ℚ
  totalTransactions : Nat
  breakdown : List (String × BEntry)
  totalSales : ℚ
deriving DecidableEq

/-- The per-method bucket branch of the summary loop: `cash`/`upi`/`card`/
`credit` buckets are overwritten with the group's net, anything else is
added into `otherTotal`. -/
def bucketUpdate (s : Summary) (pm : String) (net : ℚ) : Summary :=
  if pm == "cash" then { s with cashTotal := net }
  else if pm == "upi" then { s with upiTotal := net }
  else if pm == "card" then { s with cardTotal := net }
  else if pm == "credit" then { s with creditTotal := net }
  else { s with otherTotal := s.otherTotal + net }

/-- One iteration of the summary loop over a sales aggregation group. -/
def applyGroup (rbm : List (String × ℚ)) (s : Summary) (g : String × ℚ × Nat) :
    Summary :=
  let pm := lowerKey g.1
  let gross := g.2.1
  let count := g.2.2
  let methodReturns := dictGetD rbm pm 0
  let net := gross - methodReturns
  let s1 := { s with grossSales := s.grossSales + gross
                     totalTransactions := s.totalTransactions + count }
  let s2 := bucketUpdate s1 pm net
  { s2 with breakdown := dictInsert s2.breakdown pm ⟨gross, methodReturns, net, count⟩ }

/-- The summary skeleton before the loop: everything zero except
`totalReturns`, which is the sum over all return groups. -/
def initSummary (totalReturns : ℚ) : Summary :=
  { grossSales := 0, totalReturns := totalReturns, netSales := 0,
    cashTotal := 0, upiTotal := 0, cardTotal := 0, creditTotal := 0,
    otherTotal := 0, totalTransactions := 0, breakdown := [], totalSales := 0 }

/-- The business- and date-scoped sales of a summary query. -/
def inRangeSales (businessId : Nat) (startDate endDate : String) (db : DB) :
    List SaleDoc :=
  db.sales.filter (fun s =>
    s.businessId == businessId && strLe startDate s.date && strLe s.date endDate)

/-- The business- and date-scoped returns of a summary query. -/
def inRangeReturns (businessId : Nat) (startDate endDate : String) (db : DB) :
    List ReturnDoc :=
  db.returns.filter (fun r =>
    r.businessId == businessId && strLe startDate r.date && strLe r.date endDate)

/-- `GET /api/sales/summary` (`get_sales_summary`): aggregates in-range sales
by raw payment method and in-range returns by raw `originalPaymentMethod`,
builds the lowered-key returns dict, folds the sales groups through the
summary loop, and finally sets `netSales = grossSales - totalReturns`
(`totalSales` mirrors it for backward compatibility). -/
def get_sales_summary (businessId : Nat) (startDate endDate : String) (db : DB) :
    Summary :=
  let sgroups := salesGroups (inRangeSales businessId startDate endDate db)
  let rgroups := retGroups (inRangeReturns businessId startDate endDate db)
  let rbm := returnsByMethod rgroups
  let s := sgroups.foldl (applyGroup rbm) (initSummary (totalReturnsOf rgroups))
  { s with netSales := s.grossSales - s.totalReturns
           totalSales := s.grossSales - s.totalReturns }

/-! ### Helper lemmas -/

theorem abs_roundHalfEven_sub_le (y : ℚ) : |(roundHalfEven y : ℚ) - y| ≤ 1/2 := by
  unfold roundHalfEven
  have h1 : ((⌊y⌋ : ℤ) : ℚ) ≤ y := Int.floor_le y
  have h2 : y < (⌊y⌋ : ℚ) + 1 := Int.lt_floor_add_one y
  by_cases hc1 : y - (⌊y⌋ : ℚ) < 1/2
  · rw [if_pos hc1, abs_le]
    constructor <;> linarith
  · rw [if_neg hc1]
    by_cases hc2 : 1/2 < y - (⌊y⌋ : ℚ)
    · rw [if_pos hc2]
      rw [abs_le]
      push_cast
      constructor <;> linarith
    · rw [if_neg hc2]
      have heq : y - (⌊y⌋ : ℚ) = 1/2 := by linarith
      by_cases hp : ⌊y⌋ % 2 = 0
      · rw [if_pos hp, abs_le]
        constructor <;> linarith
      · rw [if_neg hp, abs_le]
        push_cast
        constructor <;> linarith

theorem abs_round2_sub_le (x : ℚ) : |round2 x - x| ≤ 1/200 := by
  unfold round2
  have h := abs_roundHalfEven_sub_le (x * 100)
  have heq : (roundHalfEven (x * 100) : ℚ) / 100 - x
      = ((roundHalfEven (x * 100) : ℚ) - x * 100) / 100 := by ring
  rw [heq, abs_div]
  have : |(100 : ℚ)| = 100 := by norm_num
  rw [this]
  linarith

theorem abs_sum_map_round2_sub (l : List ℚ) :
    |(l.map round2).sum - l.sum| ≤ (l.length : ℚ) * (1/200) := by
  induction l with
  | nil => simp
  | cons x xs ih =>
    have hx := abs_round2_sub_le x
    have tri : |round2 x + (xs.map round2).sum - (x + xs.sum)|
        ≤ |round2 x - x| + |(xs.map round2).sum - xs.sum| := by
      have : round2 x + (xs.map round2).sum - (x + xs.sum)
          = (round2 x - x) + ((xs.map round2).sum - xs.sum) := by ring
      rw [this]
      exact abs_add _ _
    simp only [List.map_cons, List.sum_cons, List.length_cons]
    push_cast
    calc |round2 x + (xs.map round2).sum - (x + xs.sum)|
        ≤ |round2 x - x| + |(xs.map round2).sum - xs.sum| := tri
      _ ≤ 1/200 + (xs.length : ℚ) * (1/200) := by
          exact add_le_add hx ih
      _ = ((xs.length : ℚ) + 1) * (1/200) := by ring

theorem sum_map_sub {α : Type} (f g : α → ℚ) (l : List α) :
    (l.map (fun a => f a - g a)).sum = (l.map f).sum - (l.map g).sum := by
  induction l with
  | nil => simp
  | cons x xs ih => simp [ih]; ring

theorem sum_map_div_mul {α : Type} (f : α → ℚ) (c d : ℚ) (l : List α) :
    (l.map (fun a => f a / c * d)).sum = (l.map f).sum / c * d := by
  induction l with
  | nil => simp
  | cons x xs ih => simp [ih]; ring

/-- Projects the persisted sale out of a `create_sale`/`create_exchange`-style
result. -/
def okSale : Except ApiErr (DB × SaleDoc) → Option SaleDoc
  | .ok (_, doc) => some doc
  | .error _ => none

/-- Sum of the `finalPaidAmount` fields of a sale's items. -/
def sumFinalPaid (items : List SaleItem) : ℚ :=
  (items.map (fun it => it.finalPaidAmount.getD 0)).sum

/-- The total quantity a sale's items decrement from product `p`. -/
def saleQtyFor (businessId : Nat) (items : List SaleItem) (p : ProductDoc) : Int :=
  ((items.filter (fun it => p.id == it.productId && p.businessId == businessId)).map
    (fun it => it.quantity)).sum

/-- The total quantity a return's items add back onto product `p`. -/
def retQtyFor (businessId : Nat) (items : List ReturnItem) (p : ProductDoc) : Int :=
  ((items.filter (fun it => p.id == it.productId && p.businessId == businessId)).map
    (fun it => it.quantity)).sum

theorem allocateItems_length (ot d : ℚ) (items : List SaleItem) :
    (allocateItems ot d items).length = items.length := by
  simp [allocateItems]

theorem allocItem_productId (ot d : ℚ) (it : SaleItem) :
    (allocItem ot d it).productId = it.productId := by
  unfold allocItem
  split <;> rfl

theorem allocItem_quantity (ot d : ℚ) (it : SaleItem) :
    (allocItem ot d it).quantity = it.quantity := by
  unfold allocItem
  split <;> rfl

theorem saleQtyFor_stock_irrel (businessId : Nat) (items : List SaleItem)
    (p : ProductDoc) (x : Int) :
    saleQtyFor businessId items { p with stock := x }
      = saleQtyFor businessId items p := rfl

theorem retQtyFor_stock_irrel (businessId : Nat) (items : List ReturnItem)
    (p : ProductDoc) (x : Int) :
    retQtyFor businessId items { p with stock := x }
      = retQtyFor businessId items p := rfl

theorem saleQtyFor_allocate (businessId : Nat) (ot d : ℚ) (items : List SaleItem)
    (p : ProductDoc) :
    saleQtyFor businessId (allocateItems ot d items) p
      = saleQtyFor businessId items p := by
  induction items with
  | nil => rfl
  | cons it its ih =>
    unfold saleQtyFor at ih ⊢
    simp only [allocateItems, List.map_cons, List.filter_cons, allocItem_productId]
      at ih ⊢
    cases hm : (p.id == it.productId && p.businessId == businessId) with
    | true =>
      simp only [hm, if_true, List.map_cons, List.sum_cons, allocItem_quantity]
      rw [ih]
    | false =>
      simp only [hm, Bool.false_eq_true, if_false]
      exact ih

theorem incStock_general (businessId productId : Nat) (delta : Int)
    (ps : List ProductDoc) :
    incStock businessId productId delta ps
      = ps.map (fun p =>
          if p.id == productId && p.businessId == businessId then
            { p with stock := p.stock + delta } else p) := rfl

theorem applySaleDecs_eq_map (businessId : Nat) (items : List SaleItem)
    (ps : List ProductDoc) :
    applySaleDecs businessId items ps
      = ps.map (fun p => { p with stock := p.stock - saleQtyFor businessId items p }) := by
  induction items generalizing ps with
  | nil =>
    unfold applySaleDecs saleQtyFor
    simp only [List.foldl_nil, List.filter_nil, List.map_nil, List.sum_nil,
      Int.sub_zero]
    exact (List.map_id ps).symm
  | cons it its ih =>
    unfold applySaleDecs at ih ⊢
    simp only [List.foldl_cons]
    rw [ih (incStock businessId it.productId (-it.quantity) ps), incStock_general,
      List.map_map]
    apply List.map_congr_left
    intro p _
    simp only [Function.comp]
    cases hm : (p.id == it.productId && p.businessId == businessId) with
    | true =>
      simp only [hm, if_true, saleQtyFor_stock_irrel]
      unfold saleQtyFor
      simp only [List.filter_cons, hm, if_true, List.map_cons, List.sum_cons,
        ProductDoc.mk.injEq, true_and]
      omega
    | false =>
      simp only [hm, Bool.false_eq_true, if_false]
      unfold saleQtyFor
      simp only [List.filter_cons, hm, Bool.false_eq_true, if_false]

theorem applyReturnIncs_eq_map (businessId : Nat) (items : List ReturnItem)
    (ps : List ProductDoc) :
    applyReturnIncs businessId items ps
      = ps.map (fun p => { p with stock := p.stock + retQtyFor businessId items p }) := by
  induction items generalizing ps with
  | nil =>
    unfold applyReturnIncs retQtyFor
    simp only [List.foldl_nil, List.filter_nil, List.map_nil, List.sum_nil,
      Int.add_zero]
    exact (List.map_id ps).symm
  | cons it its ih =>
    unfold applyReturnIncs at ih ⊢
    simp only [List.foldl_cons]
    rw [ih (incStock businessId it.productId it.quantity ps), incStock_general,
      List.map_map]
    apply List.map_congr_left
    intro p _
    simp only [Function.comp]
    cases hm : (p.id == it.productId && p.businessId == businessId) with
    | true =>
      simp only [hm, if_true, retQtyFor_stock_irrel]
      unfold retQtyFor
      simp only [List.filter_cons, hm, if_true, List.map_cons, List.sum_cons,
        ProductDoc.mk.injEq, true_and]
      omega
    | false =>
      simp only [hm, Bool.false_eq_true, if_false]
      unfold retQtyFor
      simp only [List.filter_cons, hm, Bool.false_eq_true, if_false]

theorem mem_keysAux {x : String} : ∀ {l : List String}, x ∈ keysAux l ↔ x ∈ l := by
  intro l
  induction l with
  | nil => simp [keysAux]
  | cons k ks ih =>
    simp only [keysAux, List.mem_cons, List.mem_filter, ih, ne_eq, decide_eq_true_eq]
    constructor
    · rintro (h | ⟨h1, _⟩)
      · exact Or.inl h
      · exact Or.inr h1
    · rintro (h | h)
      · exact Or.inl h
      · by_cases hx : x = k
        · exact Or.inl hx
        · exact Or.inr ⟨h, hx⟩

theorem nodup_keysAux : ∀ (l : List String), (keysAux l).Nodup := by
  intro l
  induction l with
  | nil => simp [keysAux]
  | cons k ks ih =>
    simp only [keysAux, List.nodup_cons]
    refine ⟨?_, ih.filter _⟩
    intro hmem
    have h2 := (List.mem_filter.mp hmem).2
    simp at h2

theorem sum_filter_split {α : Type} (val : α → ℚ) (pred : α → Bool)
    (l : List α) :
    (l.map val).sum
      = ((l.filter pred).map val).sum + ((l.filter (fun a => ¬ pred a)).map val).sum := by
  induction l with
  | nil => simp
  | cons a as ih =>
    cases hp : pred a with
    | true => simp [List.filter_cons, hp, ih]; ring
    | false => simp [List.filter_cons, hp, ih]; ring

/-- The total over a list equals the sum of its per-key group totals, for any
duplicate-free key cover. -/
theorem sum_over_keys {α : Type} (key : α → String) (val : α → ℚ) :
    ∀ (ks : List String) (l : List α), ks.Nodup → (∀ a ∈ l, key a ∈ ks) →
      (ks.map (fun k => ((l.filter (fun a => key a == k)).map val).sum)).sum
        = (l.map val).sum := by
  intro ks
  induction ks with
  | nil =>
    intro l _ hcov
    cases l with
    | nil => simp
    | cons a as => exact absurd (hcov a (by simp)) (by simp)
  | cons k ks ih =>
    intro l hnd hcov
    simp only [List.nodup_cons] at hnd
    simp only [List.map_cons, List.sum_cons]
    have hsplit := sum_filter_split val (fun a => key a == k) l
    have hrest :
        (ks.map (fun k2 => ((l.filter (fun a => key a == k2)).map val).sum)).sum
          = ((l.filter (fun a => ¬ (key a == k))).map val).sum := by
      have hcov2 : ∀ a ∈ l.filter (fun a => ¬ (key a == k)), key a ∈ ks := by
        intro a ha
        have hmem := List.mem_filter.mp ha
        have h1 := hcov a hmem.1
        have h2 : key a ≠ k := by simpa using hmem.2
        cases List.mem_cons.mp h1 with
        | inl h => exact absurd h h2
        | inr h => exact h
      have heach : ∀ k2 ∈ ks,
          l.filter (fun a => key a == k2)
            = (l.filter (fun a => ¬ (key a == k))).filter (fun a => key a == k2) := by
        intro k2 hk2
        rw [List.filter_filter]
        apply List.filter_congr
        intro a _
        cases hak : (key a == k2) with
        | false => simp
        | true =>
          have : key a = k2 := by simpa using hak
          have : ¬ (key a == k) = true := by
            simp only [beq_iff_eq, this]
            intro hkk
            exact hnd.1 (hkk ▸ hk2)
          simp_all
      calc (ks.map (fun k2 => ((l.filter (fun a => key a == k2)).map val).sum)).sum
          = (ks.map (fun k2 =>
              (((l.filter (fun a => ¬ (key a == k))).filter
                (fun a => key a == k2)).map val).sum)).sum := by
            apply congrArg
            apply List.map_congr_left
            intro k2 hk2
            rw [heach k2 hk2]
        _ = ((l.filter (fun a => ¬ (key a == k))).map val).sum :=
            ih (l.filter (fun a => ¬ (key a == k))) hnd.2 hcov2
    rw [hrest]
    linarith [hsplit]

/-- The breakdown entry the summary loop writes for a sales group. -/
def bEntry (rbm : List (String × ℚ)) (g : String × ℚ × Nat) : BEntry :=
  ⟨g.2.1, dictGetD rbm (lowerKey g.1) 0,
   g.2.1 - dictGetD rbm (lowerKey g.1) 0, g.2.2⟩

theorem bucketUpdate_grossSales (s : Summary) (pm : String) (net : ℚ) :
    (bucketUpdate s pm net).grossSales = s.grossSales := by
  unfold bucketUpdate
  repeat' split
  all_goals rfl

theorem bucketUpdate_totalReturns (s : Summary) (pm : String) (net : ℚ) :
    (bucketUpdate s pm net).totalReturns = s.totalReturns := by
  unfold bucketUpdate
  repeat' split
  all_goals rfl

theorem bucketUpdate_totalTransactions (s : Summary) (pm : String) (net : ℚ) :
    (bucketUpdate s pm net).totalTransactions = s.totalTransactions := by
  unfold bucketUpdate
  repeat' split
  all_goals rfl

theorem bucketUpdate_breakdown (s : Summary) (pm : String) (net : ℚ) :
    (bucketUpdate s pm net).breakdown = s.breakdown := by
  unfold bucketUpdate
  repeat' split
  all_goals rfl

theorem bucketUpdate_cash_set (s : Summary) (net : ℚ) :
    (bucketUpdate s "cash" net).cashTotal = net := rfl

theorem bucketUpdate_cash_other (s : Summary) (pm : String) (net : ℚ)
    (h : pm ≠ "cash") :
    (bucketUpdate s pm net).cashTotal = s.cashTotal := by
  unfold bucketUpdate
  have hb : (pm == "cash") = false := by
    simpa using h
  rw [if_neg (by simp [hb])]
  repeat' split
  all_goals rfl

theorem applyGroup_totalReturns (rbm : List (String × ℚ)) (s : Summary)
    (g : String × ℚ × Nat) :
    (applyGroup rbm s g).totalReturns = s.totalReturns := by
  unfold applyGroup
  simp only [bucketUpdate_totalReturns]

theorem applyGroup_grossSales (rbm : List (String × ℚ)) (s : Summary)
    (g : String × ℚ × Nat) :
    (applyGroup rbm s g).grossSales = s.grossSales + g.2.1 := by
  unfold applyGroup
  simp only [bucketUpdate_grossSales]

theorem applyGroup_totalTransactions (rbm : List (String × ℚ)) (s : Summary)
    (g : String × ℚ × Nat) :
    (applyGroup rbm s g).totalTransactions = s.totalTransactions + g.2.2 := by
  unfold applyGroup
  simp only [bucketUpdate_totalTransactions]

theorem applyGroup_breakdown (rbm : List (String × ℚ)) (s : Summary)
    (g : String × ℚ × Nat) :
    (applyGroup rbm s g).breakdown
      = dictInsert s.breakdown (lowerKey g.1) (bEntry rbm g) := by
  unfold applyGroup bEntry
  simp only [bucketUpdate_breakdown]

theorem applyGroup_cash_set (rbm : List (String × ℚ)) (s : Summary)
    (g : String × ℚ × Nat) (h : lowerKey g.1 = "cash") :
    (applyGroup rbm s g).cashTotal = g.2.1 - dictGetD rbm "cash" 0 := by
  unfold applyGroup
  rw [h]
  simp [bucketUpdate_cash_set]

theorem applyGroup_cash_other (rbm : List (String × ℚ)) (s : Summary)
    (g : String × ℚ × Nat) (h : lowerKey g.1 ≠ "cash") :
    (applyGroup rbm s g).cashTotal = s.cashTotal := by
  unfold applyGroup
  exact bucketUpdate_cash_other _ _ _ h

theorem foldl_applyGroup_totalReturns (rbm : List (String × ℚ)) :
    ∀ (gs : List (String × ℚ × Nat)) (acc : Summary),
      (gs.foldl (applyGroup rbm) acc).totalReturns = acc.totalReturns := by
  intro gs
  induction gs with
  | nil => intro acc; rfl
  | cons g gs ih =>
    intro acc
    simp only [List.foldl_cons, ih, applyGroup_totalReturns]

theorem foldl_applyGroup_grossSales (rbm : List (String × ℚ)) :
    ∀ (gs : List (String × ℚ × Nat)) (acc : Summary),
      (gs.foldl (applyGroup rbm) acc).grossSales
        = acc.grossSales + (gs.map (fun g => g.2.1)).sum := by
  intro gs
  induction gs with
  | nil => intro acc; simp
  | cons g gs ih =>
    intro acc
    simp only [List.foldl_cons, ih, applyGroup_grossSales, List.map_cons,
      List.sum_cons]
    ring

theorem foldl_applyGroup_totalTransactions (rbm : List (String × ℚ)) :
    ∀ (gs : List (String × ℚ × Nat)) (acc : Summary),
      (gs.foldl (applyGroup rbm) acc).totalTransactions
        = acc.totalTransactions + (gs.map (fun g => g.2.2)).sum := by
  intro gs
  induction gs with
  | nil => intro acc; simp
  | cons g gs ih =>
    intro acc
    simp only [List.foldl_cons, ih, applyGroup_totalTransactions, List.map_cons,
      List.sum_cons]
    omega

theorem dictInsert_fresh {β : Type} (d : List (String × β)) (k : String) (v : β)
    (h : ∀ e ∈ d, e.1 ≠ k) :
    dictInsert d k v = d ++ [(k, v)] := by
  induction d with
  | nil => rfl
  | cons e rest ih =>
    have he : e.1 ≠ k := h e (by simp)
    simp only [dictInsert]
    rw [if_neg (by simpa using he)]
    simp only [List.cons_append, List.cons.injEq, true_and]
    exact ih (fun e2 h2 => h e2 (by simp [h2]))

theorem foldl_applyGroup_breakdown (rbm : List (String × ℚ)) :
    ∀ (gs : List (String × ℚ × Nat)) (acc : Summary),
      (gs.map (fun g => lowerKey g.1)).Nodup →
      (∀ g ∈ gs, ∀ e ∈ acc.breakdown, e.1 ≠ lowerKey g.1) →
      (gs.foldl (applyGroup rbm) acc).breakdown
        = acc.breakdown ++ gs.map (fun g => (lowerKey g.1, bEntry rbm g)) := by
  intro gs
  induction gs with
  | nil => intro acc _ _; simp
  | cons g gs ih =>
    intro acc hnd hfresh
    simp only [List.map_cons, List.nodup_cons] at hnd
    simp only [List.foldl_cons]
    have hstep : (applyGroup rbm acc g).breakdown
        = acc.breakdown ++ [(lowerKey g.1, bEntry rbm g)] := by
      rw [applyGroup_breakdown]
      exact dictInsert_fresh _ _ _ (fun e he => hfresh g (by simp) e he)
    have hfresh2 : ∀ g2 ∈ gs, ∀ e ∈ (applyGroup rbm acc g).breakdown,
        e.1 ≠ lowerKey g2.1 := by
      intro g2 hg2 e he
      rw [hstep] at he
      cases List.mem_append.mp he with
      | inl h => exact hfresh g2 (by simp [hg2]) e h
      | inr h =>
        have heq : e = (lowerKey g.1, bEntry rbm g) := by simpa using h
        subst heq
        intro hk
        apply hnd.1
        have hk2 : lowerKey g.1 = lowerKey g2.1 := hk
        rw [hk2]
        exact List.mem_map.mpr ⟨g2, hg2, rfl⟩
    rw [ih (applyGroup rbm acc g) hnd.2 hfresh2, hstep]
    simp

theorem foldl_applyGroup_cash_preserved (rbm : List (String × ℚ)) :
    ∀ (gs : List (String × ℚ × Nat)) (acc : Summary),
      (∀ g ∈ gs, lowerKey g.1 ≠ "cash") →
      (gs.foldl (applyGroup rbm) acc).cashTotal = acc.cashTotal := by
  intro gs
  induction gs with
  | nil => intro acc _; rfl
  | cons g gs ih =>
    intro acc h
    simp only [List.foldl_cons]
    rw [ih _ (fun g2 hg2 => h g2 (by simp [hg2]))]
    exact applyGroup_cash_other _ _ _ (h g (by simp))

theorem foldl_applyGroup_cash_member (rbm : List (String × ℚ)) :
    ∀ (gs : List (String × ℚ × Nat)) (acc : Summary) (g : String × ℚ × Nat),
      (gs.map (fun g => lowerKey g.1)).Nodup → g ∈ gs → lowerKey g.1 = "cash" →
      (gs.foldl (applyGroup rbm) acc).cashTotal
        = g.2.1 - dictGetD rbm "cash" 0 := by
  intro gs
  induction gs with
  | nil => intro acc g _ hg; exact absurd hg (by simp)
  | cons g0 gs ih =>
    intro acc g hnd hg hcash
    simp only [List.map_cons, List.nodup_cons] at hnd
    simp only [List.foldl_cons]
    cases List.mem_cons.mp hg with
    | inl h =>
      subst h
      have hrest : ∀ g2 ∈ gs, lowerKey g2.1 ≠ "cash" := by
        intro g2 hg2 hk
        apply hnd.1
        rw [hcash, ← hk]
        exact List.mem_map.mpr ⟨g2, hg2, rfl⟩
      rw [foldl_applyGroup_cash_preserved rbm gs _ hrest]
      exact applyGroup_cash_set _ _ _ hcash
    | inr h =>
      exact ih _ g hnd.2 h hcash

theorem totalReturnsOf_retGroups (l : List ReturnDoc) :
    totalReturnsOf (retGroups l) = (l.map (fun r => r.returnTotal)).sum := by
  unfold totalReturnsOf retGroups
  rw [List.map_map]
  exact sum_over_keys (fun r : ReturnDoc => r.originalPaymentMethod)
    (fun r => r.returnTotal) (keysAux (l.map (fun r => r.originalPaymentMethod))) l
    (nodup_keysAux _)
    (fun a ha => mem_keysAux.mpr (List.mem_map.mpr ⟨a, ha, rfl⟩))

theorem summary_totalReturns_eq (businessId : Nat) (sd ed : String) (db : DB) :
    (get_sales_summary businessId sd ed db).totalReturns
      = ((inRangeReturns businessId sd ed db).map (fun r => r.returnTotal)).sum := by
  unfold get_sales_summary
  simp only [foldl_applyGroup_totalReturns]
  exact totalReturnsOf_retGroups _

theorem summary_netSales_eq (businessId : Nat) (sd ed : String) (db : DB) :
    (get_sales_summary businessId sd ed db).netSales
      = (get_sales_summary businessId sd ed db).grossSales
        - (get_sales_summary businessId sd ed db).totalReturns := rfl

theorem summary_grossSales_eq (businessId : Nat) (sd ed : String) (db : DB) :
    (get_sales_summary businessId sd ed db).grossSales
      = ((salesGroups (inRangeSales businessId sd ed db)).map (fun g => g.2.1)).sum := by
  unfold get_sales_summary
  simp only [foldl_applyGroup_grossSales]
  exact zero_add _

theorem summary_breakdown_eq (businessId : Nat) (sd ed : String) (db : DB)
    (hnd : ((salesGroups (inRangeSales businessId sd ed db)).map
      (fun g => lowerKey g.1)).Nodup) :
    (get_sales_summary businessId sd ed db).breakdown
      = (salesGroups (inRangeSales businessId sd ed db)).map
          (fun g => (lowerKey g.1,
            bEntry (returnsByMethod (retGroups (inRangeReturns businessId sd ed db))) g)) := by
  unfold get_sales_summary
  simp only
  rw [foldl_applyGroup_breakdown _ _ _ hnd (by intro g _ e he; simp [initSummary] at he)]
  simp [initSummary]

theorem summary_cashTotal_of_mem (businessId : Nat) (sd ed : String) (db : DB)
    (g : String × ℚ × Nat)
    (hnd : ((salesGroups (inRangeSales businessId sd ed db)).map
      (fun g => lowerKey g.1)).Nodup)
    (hg : g ∈ salesGroups (inRangeSales businessId sd ed db))
    (hcash : lowerKey g.1 = "cash") :
    (get_sales_summary businessId sd ed db).cashTotal
      = g.2.1 - dictGetD (returnsByMethod (retGroups
          (inRangeReturns businessId sd ed db))) "cash" 0 := by
  unfold get_sales_summary
  simp only
  exact foldl_applyGroup_cash_member _ _ _ g hnd hg hcash

theorem foldl_dictInsert_eq_append {γ β : Type} (keyf : γ → String) (valf : γ → β) :
    ∀ (gs : List γ) (d : List (String × β)),
      (gs.map keyf).Nodup →
      (∀ g ∈ gs, ∀ e ∈ d, e.1 ≠ keyf g) →
      gs.foldl (fun acc g => dictInsert acc (keyf g) (valf g)) d
        = d ++ gs.map (fun g => (keyf g, valf g)) := by
  intro gs
  induction gs with
  | nil => intro d _ _; simp
  | cons g gs ih =>
    intro d hnd hfresh
    simp only [List.map_cons, List.nodup_cons] at hnd
    simp only [List.foldl_cons]
    have hstep : dictInsert d (keyf g) (valf g) = d ++ [(keyf g, valf g)] :=
      dictInsert_fresh _ _ _ (fun e he => hfresh g (by simp) e he)
    have hfresh2 : ∀ g2 ∈ gs, ∀ e ∈ dictInsert d (keyf g) (valf g),
        e.1 ≠ keyf g2 := by
      intro g2 hg2 e he
      rw [hstep] at he
      cases List.mem_append.mp he with
      | inl h => exact hfresh g2 (by simp [hg2]) e h
      | inr h =>
        have heq : e = (keyf g, valf g) := by simpa using h
        subst heq
        intro hk
        apply hnd.1
        have hk2 : keyf g = keyf g2 := hk
        rw [hk2]
        exact List.mem_map.mpr ⟨g2, hg2, rfl⟩
    rw [ih (dictInsert d (keyf g) (valf g)) hnd.2 hfresh2, hstep]
    simp

theorem returnsByMethod_eq_map (gs : List (String × ℚ × Nat))
    (hnd : (gs.map (fun g => lowerKey g.1)).Nodup) :
    returnsByMethod gs = gs.map (fun g => (lowerKey g.1, g.2.1)) := by
  unfold returnsByMethod
  exact foldl_dictInsert_eq_append (fun g => lowerKey g.1) (fun g => g.2.1) gs []
    hnd (by intro g _ e he; simp at he)

/-- Looking a lowered key up in per-raw-key group sums gives the sum over all
rows whose lowered key matches, provided the raw keys cover the rows, are
duplicate-free, and stay duplicate-free after lowering. -/
theorem dictGetD_lowered_groups {α : Type} (key : α → String) (val : α → ℚ) :
    ∀ (ks : List String) (l : List α) (k : String),
      ks.Nodup → (ks.map lowerKey).Nodup → (∀ a ∈ l, key a ∈ ks) →
      dictGetD (ks.map (fun k0 =>
          (lowerKey k0, ((l.filter (fun a => key a == k0)).map val).sum))) k 0
        = ((l.filter (fun a => lowerKey (key a) == k)).map val).sum := by
  intro ks
  induction ks with
  | nil =>
    intro l k _ _ hcov
    cases l with
    | nil => rfl
    | cons a as => exact absurd (hcov a (by simp)) (by simp)
  | cons k0 ks ih =>
    intro l k hnd hndl hcov
    simp only [List.nodup_cons] at hnd
    simp only [List.map_cons, List.nodup_cons] at hndl
    simp only [List.map_cons, dictGetD]
    by_cases hk : (lowerKey k0 == k) = true
    · rw [if_pos hk]
      have hkk : lowerKey k0 = k := by simpa using hk
      have hfe : l.filter (fun a => lowerKey (key a) == k)
          = l.filter (fun a => key a == k0) := by
        apply List.filter_congr
        intro a ha
        cases List.mem_cons.mp (hcov a ha) with
        | inl h =>
          simp [h, hkk]
        | inr h =>
          have h1 : (key a == k0) = false := by
            simp only [beq_eq_false_iff_ne, ne_eq]
            intro heq
            exact hnd.1 (heq ▸ h)
          have h2 : (lowerKey (key a) == k) = false := by
            simp only [beq_eq_false_iff_ne, ne_eq]
            intro heq
            apply hndl.1
            rw [hkk, ← heq]
            exact List.mem_map.mpr ⟨key a, h, rfl⟩
          rw [h1, h2]
      rw [hfe]
    · rw [if_neg hk]
      have hkk : lowerKey k0 ≠ k := by simpa using hk
      have hmapeq : (ks.map (fun k1 =>
            (lowerKey k1, ((l.filter (fun a => key a == k1)).map val).sum)))
          = (ks.map (fun k1 =>
            (lowerKey k1,
              (((l.filter (fun a => ¬ (key a == k0))).filter
                (fun a => key a == k1)).map val).sum))) := by
        apply List.map_congr_left
        intro k1 hk1
        have : l.filter (fun a => key a == k1)
            = (l.filter (fun a => ¬ (key a == k0))).filter (fun a => key a == k1) := by
          rw [List.filter_filter]
          apply List.filter_congr
          intro a _
          cases hak : (key a == k1) with
          | false => simp
          | true =>
            have h1 : key a = k1 := by simpa using hak
            have h2 : ¬ (key a == k0) = true := by
              simp only [beq_iff_eq, h1]
              intro hkk0
              exact hnd.1 (hkk0 ▸ hk1)
            simp_all
        rw [this]
      rw [hmapeq]
      have hcov2 : ∀ a ∈ l.filter (fun a => ¬ (key a == k0)), key a ∈ ks := by
        intro a ha
        have hmem := List.mem_filter.mp ha
        cases List.mem_cons.mp (hcov a hmem.1) with
        | inl h => exact absurd (by simpa using hmem.2 : ¬ key a = k0) (by simp [h])
        | inr h => exact h
      rw [ih (l.filter (fun a => ¬ (key a == k0))) k hnd.2 hndl.2 hcov2]
      have : l.filter (fun a => lowerKey (key a) == k)
          = (l.filter (fun a => ¬ (key a == k0))).filter
              (fun a => lowerKey (key a) == k) := by
        rw [List.filter_filter]
        apply List.filter_congr
        intro a _
        cases hak : (lowerKey (key a) == k) with
        | false => simp
        | true =>
          have h1 : lowerKey (key a) = k := by simpa using hak
          have h2 : ¬ (key a == k0) = true := by
            simp only [beq_iff_eq]
            intro hkk0
            exact hkk (hkk0 ▸ h1)
          simp_all
      rw [← this]

/-- Under case-distinct raw return methods, the `returns_by_method` lookup for
a lowered key is the sum of `returnTotal` over the in-range returns whose
lowered `originalPaymentMethod` is that key. -/
theorem returnsByMethod_lookup (l : List ReturnDoc) (k : String)
    (hnd : ((retGroups l).map (fun g => lowerKey g.1)).Nodup) :
    dictGetD (returnsByMethod (retGroups l)) k 0
      = ((l.filter (fun r => lowerKey r.originalPaymentMethod == k)).map
          (fun r => r.returnTotal)).sum := by
  rw [returnsByMethod_eq_map _ hnd]
  unfold retGroups
  rw [List.map_map]
  have hmk : ((keysAux (l.map (fun r => r.originalPaymentMethod))).map
        ((fun g : String × ℚ × Nat => (lowerKey g.1, g.2.1)) ∘ (fun k0 =>
          (k0, ((l.filter (fun r => r.originalPaymentMethod == k0)).map
            (fun r => r.returnTotal)).sum,
            (l.filter (fun r => r.originalPaymentMethod == k0)).length))))
      = ((keysAux (l.map (fun r => r.originalPaymentMethod))).map (fun k0 =>
          (lowerKey k0, ((l.filter (fun r => r.originalPaymentMethod == k0)).map
            (fun r => r.returnTotal)).sum))) := rfl
  rw [hmk]
  have hnd2 : ((keysAux (l.map (fun r => r.originalPaymentMethod))).map
      lowerKey).Nodup := by
    unfold retGroups at hnd
    rw [List.map_map] at hnd
    exact hnd
  exact dictGetD_lowered_groups (fun r => r.originalPaymentMethod)
    (fun r => r.returnTotal) _ l k (nodup_keysAux _) hnd2
    (fun a ha => mem_keysAux.mpr (List.mem_map.mpr ⟨a, ha, rfl⟩))

theorem create_sale_ok_parts (businessId : Nat) (today : String) (req : SaleReq)
    (db db' : DB) (doc : SaleDoc)
    (h : create_sale businessId today req db = .ok (db', doc)) :
    doc.items = allocateItems (computedOriginalTotal req.items)
        (req.discountAmount.getD 0) req.items
    ∧ doc.total = req.total
    ∧ db'.products = applySaleDecs businessId
        (allocateItems (computedOriginalTotal req.items)
          (req.discountAmount.getD 0) req.items) db.products
    ∧ db'.sales = db.sales ++ [doc]
    ∧ db'.returns = db.returns := by
  unfold create_sale at h
  by_cases hg : (pyLower req.paymentMethod == "credit"
      && blankPhone req.customerPhone) = true
  · rw [if_pos hg] at h
    exact absurd h (by simp)
  · rw [if_neg hg] at h
    simp only [Except.ok.injEq, Prod.mk.injEq] at h
    obtain ⟨hdb, hdoc⟩ := h
    subst hdoc
    refine ⟨rfl, rfl, ?_, ?_, ?_⟩ <;> rw [← hdb]

/-! ### Example fixtures -/

/-- A first sale line: one unit at 1.01. -/
def exItemA : SaleItem := ⟨1, "A", 1, 1.01, "", "", none, some 0, none⟩

/-- A second sale line: one unit at 7.07. -/
def exItemB : SaleItem := ⟨2, "B", 1, 7.07, "", "", none, some 0, none⟩

/-- A cash sale request over both example lines with a flat discount of 1. -/
def exSaleReq : SaleReq := ⟨[exItemA, exItemB], 9.08, "cash", none, none, some 0, some 1, none⟩

/-- A store with two products of business 7. -/
def exDB : DB := ⟨[], [], [], [⟨1, 7, "A", 1.01, 5⟩, ⟨2, 7, "B", 7.07, 3⟩], [], [], 10⟩

/-- A sale line of one unit at 0.75 (= 3/4, exactly representable in
binary64). -/
def exDyItemA : SaleItem := ⟨1, "A", 1, 0.75, "", "", none, some 0, none⟩

/-- A sale line of one unit at 5.25 (= 21/4, exactly representable in
binary64). -/
def exDyItemB : SaleItem := ⟨2, "B", 1, 5.25, "", "", none, some 0, none⟩

/-- A cash sale request over the two dyadic lines with a flat discount of 1:
the original total is 6, and every intermediate of the allocation loop
(0.75/6 = 0.125, 0.75-0.125 = 0.625, 5.25/6 = 0.875, 5.25-0.875 = 4.375) is a
dyadic rational exactly representable in binary64, so the program's float
arithmetic computes these exact values. -/
def exDySaleReq : SaleReq :=
  ⟨[exDyItemA, exDyItemB], 5, "cash", none, none, some 0, some 1, none⟩

/-! ### Claims -/

/--
C1, amended.  For every successful sale, each persisted line carries
`itemTotal = price*quantity`; when the computed `originalTotal <= 0` or the
request's `discountAmount <= 0`, its `discountAmount` is 0 and
`finalPaidAmount = itemTotal`; otherwise its `discountAmount` is
`round(itemTotal/originalTotal * discountAmount, 2)` and its `finalPaidAmount`
is `round(itemTotal - rawLineDiscount, 2)` where `rawLineDiscount` is the
**unrounded** proportional discount `itemTotal/originalTotal * discountAmount`
(the claim as frozen says the rounded line discount is subtracted; the code
subtracts the raw one before rounding — see the counterexample).
-/
theorem c1_discount_allocation (businessId : Nat) (today : String) (req : SaleReq)
    (db db' : DB) (doc : SaleDoc)
    (h : create_sale businessId today req db = .ok (db', doc)) :
    doc.items.length = req.items.length ∧
    ∀ i (hi : i < req.items.length) (hi2 : i < doc.items.length),
      let it := req.items.get ⟨i, hi⟩
      let out := doc.items.get ⟨i, hi2⟩
      let t := it.price * (it.quantity : ℚ)
      let ot := computedOriginalTotal req.items
      let d := req.discountAmount.getD 0
      out.itemTotal = some t
      ∧ ((ot ≤ 0 ∨ d ≤ 0) →
          out.discountAmount = some 0 ∧ out.finalPaidAmount = some t)
      ∧ (0 < ot → 0 < d →
          out.discountAmount = some (round2 (t / ot * d))
          ∧ out.finalPaidAmount = some (round2 (t - t / ot * d))) := by
  obtain ⟨hitems, -, -, -, -⟩ := create_sale_ok_parts _ _ _ _ _ _ h
  constructor
  · rw [hitems, allocateItems_length]
  · intro i hi hi2
    intro it out t ot d
    have hout : out = allocItem ot d it := by
      show doc.items.get ⟨i, hi2⟩ = _
      rw [List.get_of_eq hitems ⟨i, hi2⟩]
      unfold allocateItems
      rw [List.get_map]
    by_cases hc : ot > 0 ∧ d > 0
    · have halloc : allocItem ot d it
          = { it with itemTotal := some t,
                      discountAmount := some (round2 (t / ot * d)),
                      finalPaidAmount := some (round2 (t - t / ot * d)) } := by
        unfold allocItem
        rw [if_pos hc]
      rw [hout, halloc]
      refine ⟨rfl, ?_, ?_⟩
      · intro hzero
        rcases hzero with h1 | h1 <;> [exact absurd hc.1 (by linarith); exact absurd hc.2 (by linarith)]
      · intro _ _
        exact ⟨rfl, rfl⟩
    · have halloc : allocItem ot d it
          = { it with itemTotal := some t,
                      discountAmount := some 0,
                      finalPaidAmount := some t } := by
        unfold allocItem
        rw [if_neg hc]
      rw [hout, halloc]
      refine ⟨rfl, ?_, ?_⟩
      · intro _
        exact ⟨rfl, rfl⟩
      · intro h1 h2
        exact absurd ⟨h1, h2⟩ hc

/--
C1 witness: the dyadic example sale settles and the amended per-line facts
hold on it (first line: raw discount 0.125, stored discount 0.12, final paid
`round(0.75 - 0.125, 2) = 0.62`; second line: raw discount 0.875, stored
discount 0.88, final paid `round(5.25 - 0.875, 2) = 4.38`) — the same values
CPython computes, every intermediate being exactly representable.
-/
theorem c1_witness :
    ∃ db' doc, create_sale 7 "2024-01-01" exDySaleReq exDB = .ok (db', doc)
      ∧ doc.items.length = exDySaleReq.items.length
      ∧ doc.items.map (fun it => it.finalPaidAmount) = [some 0.62, some 4.38] := by
  obtain ⟨⟨db', doc⟩, h⟩ :
      ∃ p, create_sale 7 "2024-01-01" exDySaleReq exDB = .ok p := ⟨_, rfl⟩
  refine ⟨db', doc, h, (c1_discount_allocation _ _ _ _ _ _ h).1, ?_⟩
  have hx : okSale (create_sale 7 "2024-01-01" exDySaleReq exDB)
      = some doc := by rw [h]; rfl
  have hy : (okSale (create_sale 7 "2024-01-01" exDySaleReq exDB)).map
      (fun d => d.items.map (fun it => it.finalPaidAmount))
      = some [some 0.62, some 4.38] := by decide
  rw [hx] at hy
  simpa using hy

/--
C1 counterexample: with lines (0.75 x1) and (5.25 x1) and a discount of 1,
the first line's raw proportional discount is 0.75/6 = 0.125.  Every
intermediate here (6.0, 0.125, 0.625, 0.875, 4.375) is a dyadic rational
exactly representable in binary64, so CPython's float arithmetic produces
these exact values and its `round` resolves the same true decimal ties the
model does.  The code stores `finalPaidAmount = round(0.75 - 0.125, 2)
= round(0.625, 2) = 0.62` (tie, half to even), while the claim's formula
`round(itemTotal - lineDiscount, 2)` with the **rounded** line discount
(`round(0.125, 2) = 0.12`) gives `round(0.75 - 0.12, 2) = 0.63`.  (The
second line likewise stores 4.38 where the claim's formula gives
`round(5.25 - 0.88, 2) = 4.37`.)
-/
theorem c1_counterexample :
    computedOriginalTotal exDySaleReq.items = 6
    ∧ ((okSale (create_sale 7 "2024-01-01" exDySaleReq exDB)).map
        (fun doc => doc.items.map (fun it => it.finalPaidAmount)))
        = some [some 0.62, some 4.38]
    ∧ round2 (0.75 - round2 (0.75 / 6 * 1)) = 0.63
    ∧ (0.62 : ℚ) ≠ 0.63
    ∧ round2 (5.25 - round2 (5.25 / 6 * 1)) = 4.37
    ∧ (4.38 : ℚ) ≠ 4.37 := by
  exact ⟨by decide, by decide, by decide, by decide, by decide, by decide⟩

/-- The discount `create_sale` actually distributes: the request's
`discountAmount` when the allocation loop takes its active branch, else 0. -/
def effectiveDiscount (req : SaleReq) : ℚ :=
  if 0 < computedOriginalTotal req.items ∧ 0 < req.discountAmount.getD 0 then
    req.discountAmount.getD 0
  else 0

/--
C3, amended.  For every Sale persisted by `create_sale`, the sum of the
items' `finalPaidAmount` is within 0.005 per line of the **computed**
`originalTotal` minus the effective discount; but the sale's `total` field is
persisted exactly as the client supplied it and is never checked against that
sum, so the frozen claim's invariant `sum(finalPaidAmount) == sale.total`
holds only for clients that send a consistent total (see the counterexample).
-/
theorem c3_total_vs_final_paid (businessId : Nat) (today : String) (req : SaleReq)
    (db db' : DB) (doc : SaleDoc)
    (h : create_sale businessId today req db = .ok (db', doc)) :
    doc.total = req.total
    ∧ |sumFinalPaid doc.items
        - (computedOriginalTotal req.items - effectiveDiscount req)|
        ≤ (req.items.length : ℚ) * (1/200) := by
  obtain ⟨hitems, htotal, -, -, -⟩ := create_sale_ok_parts _ _ _ _ _ _ h
  refine ⟨htotal, ?_⟩
  rw [hitems]
  unfold sumFinalPaid allocateItems effectiveDiscount
  rw [List.map_map]
  by_cases hc : 0 < computedOriginalTotal req.items ∧ 0 < req.discountAmount.getD 0
  · rw [if_pos hc]
    have hpt : ∀ it ∈ req.items,
        ((fun it : SaleItem => it.finalPaidAmount.getD 0)
          ∘ allocItem (computedOriginalTotal req.items) (req.discountAmount.getD 0)) it
        = round2 (it.price * (it.quantity : ℚ)
            - it.price * (it.quantity : ℚ) / computedOriginalTotal req.items
              * req.discountAmount.getD 0) := by
      intro it _
      simp only [Function.comp]
      unfold allocItem
      rw [if_pos hc]
      rfl
    rw [List.map_congr_left hpt]
    have hrw : req.items.map (fun it => round2 (it.price * (it.quantity : ℚ)
          - it.price * (it.quantity : ℚ) / computedOriginalTotal req.items
            * req.discountAmount.getD 0))
        = (req.items.map (fun it => it.price * (it.quantity : ℚ)
            - it.price * (it.quantity : ℚ) / computedOriginalTotal req.items
              * req.discountAmount.getD 0)).map round2 := by
      rw [List.map_map]
      rfl
    rw [hrw]
    have hbound := abs_sum_map_round2_sub (req.items.map
      (fun it => it.price * (it.quantity : ℚ)
        - it.price * (it.quantity : ℚ) / computedOriginalTotal req.items
          * req.discountAmount.getD 0))
    rw [List.length_map] at hbound
    have hsum : (req.items.map (fun it => it.price * (it.quantity : ℚ)
          - it.price * (it.quantity : ℚ) / computedOriginalTotal req.items
            * req.discountAmount.getD 0)).sum
        = computedOriginalTotal req.items - req.discountAmount.getD 0 := by
      rw [sum_map_sub (fun it : SaleItem => it.price * (it.quantity : ℚ))
        (fun it : SaleItem => it.price * (it.quantity : ℚ)
          / computedOriginalTotal req.items * req.discountAmount.getD 0)]
      rw [sum_map_div_mul (fun it : SaleItem => it.price * (it.quantity : ℚ))]
      have hot : (req.items.map (fun it : SaleItem
          => it.price * (it.quantity : ℚ))).sum = computedOriginalTotal req.items := rfl
      rw [hot, div_self (ne_of_gt hc.1), one_mul]
    rw [hsum] at hbound
    exact hbound
  · rw [if_neg hc]
    have hpt : ∀ it ∈ req.items,
        ((fun it : SaleItem => it.finalPaidAmount.getD 0)
          ∘ allocItem (computedOriginalTotal req.items) (req.discountAmount.getD 0)) it
        = it.price * (it.quantity : ℚ) := by
      intro it _
      simp only [Function.comp]
      unfold allocItem
      rw [if_neg hc]
      rfl
    rw [List.map_congr_left hpt]
    have hot : (req.items.map (fun it : SaleItem
        => it.price * (it.quantity : ℚ))).sum = computedOriginalTotal req.items := rfl
    rw [hot]
    simp only [sub_zero, sub_self, abs_zero]
    positivity

/--
C3 witness: on the example sale the settled lines sum to 7.08, exactly the
computed original total 8.08 minus the discount 1.
-/
theorem c3_witness :
    ∃ db' doc, create_sale 7 "2024-01-01" exSaleReq exDB = .ok (db', doc)
      ∧ doc.total = exSaleReq.total
      ∧ |sumFinalPaid doc.items
          - (computedOriginalTotal exSaleReq.items - effectiveDiscount exSaleReq)|
          ≤ (exSaleReq.items.length : ℚ) * (1/200) := by
  obtain ⟨⟨db', doc⟩, h⟩ :
      ∃ p, create_sale 7 "2024-01-01" exSaleReq exDB = .ok p := ⟨_, rfl⟩
  obtain ⟨h1, h2⟩ := c3_total_vs_final_paid _ _ _ _ _ _ h
  exact ⟨db', doc, h, h1, h2⟩

/-- A sale request whose client-supplied `total` (100) has nothing to do with
its single line (one unit at 1, no discount). -/
def exBadTotalReq : SaleReq :=
  ⟨[⟨1, "A", 1, 1, "", "", none, some 0, none⟩], 100, "cash", none, none,
   some 0, some 0, none⟩

/--
C3 counterexample: `create_sale` persists the client's `total = 100` although
the settled lines sum to 1; the difference 99 is far beyond any two-decimal
rounding tolerance, refuting the frozen claim's "regardless of the total value
the client supplied".
-/
theorem c3_counterexample :
    ((okSale (create_sale 7 "2024-01-01" exBadTotalReq exDB)).map
      (fun doc => (doc.total, sumFinalPaid doc.items))) = some (100, 1)
    ∧ ¬((100 : ℚ) - 1 ≤ 1/100) := by
  exact ⟨by decide, by decide⟩

/--
C4, confirmed.  A sale request whose payment method lowercases to "credit"
fails with the 400 phone error exactly when `customerPhone` is absent or blank
after stripping (and the error is raised before any store write, so nothing is
persisted and no stock moves: the error result carries no new state); any
other payment method always settles, phone or not.
-/
theorem c4_credit_phone (db : DB) (businessId : Nat) (today : String)
    (req : SaleReq) :
    (pyLower req.paymentMethod = "credit" ∧ blankPhone req.customerPhone = true →
      create_sale businessId today req db = .error phoneErr)
    ∧ (pyLower req.paymentMethod = "credit" ∧ blankPhone req.customerPhone = false →
      ∃ res, create_sale businessId today req db = .ok res)
    ∧ (pyLower req.paymentMethod ≠ "credit" →
      ∃ res, create_sale businessId today req db = .ok res) := by
  refine ⟨?_, ?_, ?_⟩
  · rintro ⟨h1, h2⟩
    unfold create_sale
    rw [if_pos (by simp [h1, h2])]
  · rintro ⟨h1, h2⟩
    unfold create_sale
    rw [if_neg (by simp [h2])]
    exact ⟨_, rfl⟩
  · intro h1
    unfold create_sale
    rw [if_neg (by simp [h1])]
    exact ⟨_, rfl⟩

/-- A credit sale request with a whitespace-only phone. -/
def exCreditBlankReq : SaleReq :=
  ⟨[exItemA], 1.01, "CREDIT", none, none, some 0, some 0, some "  "⟩

/-- A credit sale request with a usable phone. -/
def exCreditPhoneReq : SaleReq :=
  ⟨[exItemA], 1.01, "credit", none, none, some 0, some 0, some "98765"⟩

/-- A cash sale request without any phone. -/
def exCashNoPhoneReq : SaleReq :=
  ⟨[exItemA], 1.01, "cash", none, none, some 0, some 0, none⟩

/--
C4 witness: a CREDIT sale with a whitespace phone fails with the phone error;
a credit sale with a phone and a cash sale without one both settle.
-/
theorem c4_witness :
    create_sale 7 "2024-01-01" exCreditBlankReq exDB = .error phoneErr
    ∧ (∃ res, create_sale 7 "2024-01-01" exCreditPhoneReq exDB = .ok res)
    ∧ (∃ res, create_sale 7 "2024-01-01" exCashNoPhoneReq exDB = .ok res) :=
  ⟨(c4_credit_phone exDB 7 "2024-01-01" exCreditBlankReq).1 ⟨by decide, by decide⟩,
   (c4_credit_phone exDB 7 "2024-01-01" exCreditPhoneReq).2.1 ⟨by decide, by decide⟩,
   (c4_credit_phone exDB 7 "2024-01-01" exCashNoPhoneReq).2.2 (by decide)⟩

/--
C9, confirmed.  A successful sale maps every product of the store to the same
product with its stock decremented by the total quantity the sale's lines
reference it with (zero — hence unchanged — for products not in the sale),
with no lower bound on the result; a product referenced by exactly one line of
quantity q is decremented by exactly q.
-/
theorem c9_stock_decrement (businessId : Nat) (today : String) (req : SaleReq)
    (db db' : DB) (doc : SaleDoc)
    (h : create_sale businessId today req db = .ok (db', doc)) :
    db'.products = db.products.map (fun p =>
      { p with stock := p.stock - saleQtyFor businessId req.items p })
    ∧ (∀ p : ProductDoc, (∀ it ∈ req.items, p.id ≠ it.productId) →
        { p with stock := p.stock - saleQtyFor businessId req.items p } = p)
    ∧ (∀ (p : ProductDoc) (it : SaleItem),
        req.items.filter (fun i => p.id == i.productId
          && p.businessId == businessId) = [it] →
        saleQtyFor businessId req.items p = it.quantity) := by
  obtain ⟨-, -, hprod, -, -⟩ := create_sale_ok_parts _ _ _ _ _ _ h
  refine ⟨?_, ?_, ?_⟩
  · rw [hprod, applySaleDecs_eq_map]
    apply List.map_congr_left
    intro p _
    rw [saleQtyFor_allocate]
  · intro p hnone
    have hfilter : req.items.filter (fun i => p.id == i.productId
        && p.businessId == businessId) = [] := by
      rw [List.filter_eq_nil]
      intro it hit
      simp only [Bool.and_eq_true, beq_iff_eq, not_and]
      intro hid
      exact absurd hid (hnone it hit)
    unfold saleQtyFor
    rw [hfilter]
    simp
  · intro p it hfilter
    unfold saleQtyFor
    rw [hfilter]
    simp

/-- A cash sale of nine units of product 1 (stock 5 in `exDB`). -/
def exOverSaleReq : SaleReq :=
  ⟨[⟨1, "A", 9, 1.01, "", "", none, some 0, none⟩], 9.09, "cash", none, none,
   some 0, some 0, none⟩

/--
C9 witness: selling 9 units with stock 5 succeeds and drives the stock to -4,
leaving the other product untouched.
-/
theorem c9_witness :
    ∃ db' doc, create_sale 7 "2024-01-01" exOverSaleReq exDB = .ok (db', doc)
      ∧ db'.products.map (fun p => p.stock) = [-4, 3] := by
  obtain ⟨⟨db', doc⟩, h⟩ :
      ∃ p, create_sale 7 "2024-01-01" exOverSaleReq exDB = .ok p := ⟨_, rfl⟩
  refine ⟨db', doc, h, ?_⟩
  rw [(c9_stock_decrement _ _ _ _ _ _ h).1]
  decide

/-- Projects the exchange bundle out of a `create_exchange` result. -/
def okExch : Except ApiErr (DB × ExchangeResult) → Option ExchangeResult
  | .ok (_, res) => some res
  | .error _ => none

/--
C2, amended.  When the original sale resolves within the business,
`create_exchange` does **not** re-run `create_sale`'s settlement for the new
sale: it performs no credit-phone validation and no discount allocation — it
only stamps `businessId`/`timestamp`/`date`, decrements stock per item,
persists the new sale's items and fields exactly as sent (so
`itemTotal`/`discountAmount`/`finalPaidAmount`/`originalTotal` keep their
client-supplied values), and persists the exchange Return linked via
`exchangeSaleId` with `originalPaymentMethod` copied from the original sale.
The persisted new sale therefore differs from what `POST /sales` would have
produced (see the counterexample).
-/
theorem c2_exchange_skips_settlement (businessId : Nat) (today : String)
    (originalSaleId : Nat) (returnItems : List ReturnItem) (newSale : SaleReq)
    (db : DB) (orig : SaleDoc)
    (h : db.sales.find? (fun s => s.id == originalSaleId
      && s.businessId == businessId) = some orig) :
    ∃ db' res, create_exchange businessId today originalSaleId returnItems
        newSale db = .ok (db', res)
      ∧ res.newSale.items = newSale.items
      ∧ res.newSale.total = newSale.total
      ∧ res.newSale.paymentMethod = newSale.paymentMethod
      ∧ res.newSale.originalTotal = newSale.originalTotal
      ∧ res.newSale.customerPhone = newSale.customerPhone
      ∧ res.newSale.businessId = businessId
      ∧ res.newSale.date = today
      ∧ res.ret.exchangeSaleId = some res.newSale.id
      ∧ res.ret.originalPaymentMethod = orig.paymentMethod
      ∧ res.ret.type = "exchange"
      ∧ res.returnTotal
          = (returnItems.map (fun it => it.price * (it.quantity : ℚ))).sum
      ∧ res.priceDifference = newSale.total - res.returnTotal
      ∧ db'.products = applySaleDecs businessId newSale.items
          (applyReturnIncs businessId returnItems db.products)
      ∧ db'.sales = db.sales ++ [res.newSale]
      ∧ db'.returns = db.returns ++ [res.ret] := by
  unfold create_exchange
  rw [h]
  exact ⟨_, _, rfl, rfl, rfl, rfl, rfl, rfl, rfl, rfl, rfl, rfl, rfl, rfl, rfl,
    rfl, rfl, rfl⟩

/-- An already-persisted sale of business 7 for exchanges/returns to resolve. -/
def exOrigSale : SaleDoc :=
  ⟨100, 7, [], 50, "cash", "2024-01-01", none, none, some 0, some 0, none⟩

/-- The example store with `exOrigSale` persisted. -/
def exDB2 : DB :=
  ⟨[], [], [], [⟨1, 7, "A", 1.01, 5⟩, ⟨2, 7, "B", 7.07, 3⟩], [exOrigSale], [], 200⟩

/-- A returned line for exchanges. -/
def exRetItem : ReturnItem := ⟨2, "B", 1, 7.07, "", none⟩

/--
C2 witness: an exchange against the persisted sale succeeds even though the
replacement sale is a CREDIT sale with a blank phone, and its line is
persisted with `finalPaidAmount` still unset — both impossible through
`POST /sales`.
-/
theorem c2_witness :
    ∃ db' res, create_exchange 7 "2024-01-02" 100 [exRetItem] exCreditBlankReq
        exDB2 = .ok (db', res)
      ∧ res.newSale.customerPhone = some "  "
      ∧ res.newSale.paymentMethod = "CREDIT"
      ∧ res.newSale.items.map (fun it => it.finalPaidAmount) = [none] := by
  obtain ⟨db', res, hok, hitems, -, hpm, -, hphone, -⟩ :=
    c2_exchange_skips_settlement 7 "2024-01-02" 100 [exRetItem]
      exCreditBlankReq exDB2 exOrigSale (by decide)
  refine ⟨db', res, hok, ?_, hpm, ?_⟩
  · rw [hphone]
    rfl
  · rw [hitems]
    decide

/--
C2 counterexample: for the same request (a cash sale of one 1.01 line),
`POST /sales` persists the line with `finalPaidAmount = 1.01` and
`originalTotal = 1.01`, while the new sale persisted by `create_exchange`
keeps `finalPaidAmount = None` and `originalTotal = None` — the persisted new
sale does not equal what `POST /sales` would have produced.
-/
theorem c2_counterexample :
    ((okExch (create_exchange 7 "2024-01-02" 100 [] exCashNoPhoneReq exDB2)).map
      (fun res => (res.newSale.items.map (fun it => it.finalPaidAmount),
        res.newSale.originalTotal)))
      = some ([none], none)
    ∧ ((okSale (create_sale 7 "2024-01-02" exCashNoPhoneReq exDB2)).map
      (fun doc => (doc.items.map (fun it => it.finalPaidAmount),
        doc.originalTotal)))
      = some ([some 1.01], some 1.01)
    ∧ (([none], (none : Option ℚ)) : List (Option ℚ) × Option ℚ)
        ≠ ([some 1.01], some 1.01) := by
  exact ⟨by decide, by decide, by decide⟩

/--
C10, confirmed.  The only check `create_return` performs is that
`originalSaleId` resolves to a sale of the caller's business: any item list
(products never sold in that sale, arbitrary quantities) and any
`returnTotal` are persisted exactly as sent, `originalPaymentMethod` is
denormalized from the original sale, and the persisted `returnTotal` then
feeds `get_sales_summary`'s `totalReturns` unverified for every range
containing the return's date.
-/
theorem c10_return_only_validation (businessId : Nat) (today : String)
    (req : ReturnReq) (db : DB) (orig : SaleDoc)
    (h : db.sales.find? (fun s => s.id == req.originalSaleId
      && s.businessId == businessId) = some orig) :
    ∃ db' doc, create_return businessId today req db = .ok (db', doc)
      ∧ doc.items = req.items
      ∧ doc.returnTotal = req.returnTotal
      ∧ doc.originalPaymentMethod = orig.paymentMethod
      ∧ doc.type = req.type
      ∧ doc.businessId = businessId
      ∧ doc.date = today
      ∧ db'.returns = db.returns ++ [doc]
      ∧ db'.sales = db.sales
      ∧ (∀ sd ed, strLe sd today = true → strLe today ed = true →
          (get_sales_summary businessId sd ed db').totalReturns
            = (get_sales_summary businessId sd ed db).totalReturns
              + req.returnTotal) := by
  unfold create_return
  rw [h]
  refine ⟨_, _, rfl, rfl, rfl, rfl, rfl, rfl, rfl, rfl, rfl, ?_⟩
  intro sd ed hsd hed
  rw [summary_totalReturns_eq, summary_totalReturns_eq]
  unfold inRangeReturns
  simp only [List.filter_append, List.map_append, List.sum_append]
  have hpass : (List.filter (fun r => r.businessId == businessId
      && strLe sd r.date && strLe r.date ed)
      [({ id := db.nextId, businessId := businessId,
          originalSaleId := req.originalSaleId,
          originalPaymentMethod := orig.paymentMethod, items := req.items,
          returnTotal := req.returnTotal, reason := req.reason,
          type := req.type, exchangeSaleId := req.exchangeSaleId,
          date := today } : ReturnDoc)]).map (fun r => r.returnTotal)
      = [req.returnTotal] := by
    rw [List.filter_cons]
    simp only [hsd, hed, beq_self_eq_true, Bool.and_self, Bool.and_true,
      List.filter_nil, List.map_cons, List.map_nil]
    rfl
  rw [hpass]
  simp

/-- A return request whose items reference a product (999) the original sale
never sold, with an oversized quantity and an arbitrary `returnTotal`. -/
def exBogusReturnReq : ReturnReq :=
  ⟨100, [⟨999, "X", 42, 5, "", none⟩], 1234.56, "", "return", none⟩

/--
C10 witness: against `exOrigSale` (which has no items at all), a return of 42
units of a never-sold product with `returnTotal = 1234.56` succeeds, persists
verbatim, and bumps the summary's `totalReturns` by exactly 1234.56.
-/
theorem c10_witness :
    ∃ db' doc, create_return 7 "2024-01-01" exBogusReturnReq exDB2 = .ok (db', doc)
      ∧ doc.items = exBogusReturnReq.items
      ∧ doc.returnTotal = 1234.56
      ∧ (get_sales_summary 7 "2024-01-01" "2024-01-01" db').totalReturns
          = (get_sales_summary 7 "2024-01-01" "2024-01-01" exDB2).totalReturns
            + 1234.56 := by
  obtain ⟨db', doc, hok, hitems, htotal, -, -, -, -, -, -, hsum⟩ :=
    c10_return_only_validation 7 "2024-01-01" exBogusReturnReq exDB2 exOrigSale
      (by decide)
  exact ⟨db', doc, hok, hitems, htotal, hsum "2024-01-01" "2024-01-01"
    (by decide) (by decide)⟩

/--
C5, amended.  Fetching a product by id returns the product when it belongs to
the caller's business; when it is absent or belongs to another business the
handler's own 404 is swallowed by its `except Exception` clause and re-raised
as status **400** with detail `"404: Product not found"` — the response is
still literally identical in the absent and cross-tenant cases (no existence
leak), but its status is BadRequest, not NotFound as the frozen claim states.
-/
theorem c5_get_product (db : DB) (businessId productId : Nat) :
    (db.products.find? (fun p => p.id == productId
        && p.businessId == businessId) = none →
      get_product businessId productId db
        = .error ⟨400, "404: Product not found"⟩)
    ∧ (∀ p, db.products.find? (fun p => p.id == productId
        && p.businessId == businessId) = some p →
      get_product businessId productId db = .ok p) := by
  constructor
  · intro hnone
    unfold get_product get_product_inner
    rw [hnone]
    rfl
  · intro p hsome
    unfold get_product get_product_inner
    rw [hsome]
    rfl

/--
C5 witness: product 1 belongs to business 7 and is returned to business 7.
-/
theorem c5_witness :
    get_product 7 1 exDB = .ok ⟨1, 7, "A", 1.01, 5⟩ :=
  (c5_get_product exDB 7 1).2 ⟨1, 7, "A", 1.01, 5⟩ (by decide)

/--
C5 counterexample: business 1 fetching business 7's product 1, and business 7
fetching the absent product 999, both get the same response — but its status
is 400, not the NotFound (404) the frozen claim requires.
-/
theorem c5_counterexample :
    get_product 1 1 exDB = .error ⟨400, "404: Product not found"⟩
    ∧ get_product 7 999 exDB = .error ⟨400, "404: Product not found"⟩
    ∧ (400 : Nat) ≠ 404 := by
  exact ⟨by decide, by decide, by decide⟩

/--
C6, amended.  Signup with an existing username (globally, across all
businesses) fails — creating nothing — with status **400** (`"Username
already exists"`), the same BadRequest class as validation errors, not a
distinct Conflict (409) status as the frozen claim's taxonomy requires; with
a fresh username it creates exactly one Business, one User linked to it, and
one Settings row with `setupCompleted = false`, and returns only a message
and the two identifiers (the response type has no token field).
-/
theorem c6_signup (hashFn : String → String) (db : DB)
    (username password businessName : String) :
    ((db.users.any (fun u => u.username == username)) = true →
      signup hashFn username password businessName db
        = .error ⟨400, "Username already exists"⟩)
    ∧ ((db.users.any (fun u => u.username == username)) = false →
      signup hashFn username password businessName db
        = .ok ({ db with
            businesses := db.businesses ++ [⟨db.nextId, businessName⟩]
            users := db.users ++ [⟨db.nextId + 1, username, hashFn password, db.nextId⟩]
            settings := db.settings ++ [⟨db.nextId + 2, db.nextId, businessName, "", "", false⟩]
            nextId := db.nextId + 3 },
          ⟨"Account created successfully. Please sign in.",
           db.nextId + 1, db.nextId⟩)) := by
  constructor
  · intro hdup
    unfold signup
    rw [if_pos hdup]
  · intro hfresh
    unfold signup
    rw [if_neg (by simp [hfresh])]

/-- A store already holding the user "alice" of business 1. -/
def exUserDB : DB := ⟨[⟨1, "Shop"⟩], [⟨0, "alice", "h", 1⟩], [], [], [], [], 5⟩

/--
C6 witness: a fresh username creates exactly the three rows and returns the
identifiers; a duplicate one is rejected.
-/
theorem c6_witness :
    signup (fun s => s) "bob" "pw" "BobShop" exUserDB
      = .ok ({ exUserDB with
          businesses := exUserDB.businesses ++ [⟨5, "BobShop"⟩]
          users := exUserDB.users ++ [⟨6, "bob", "pw", 5⟩]
          settings := exUserDB.settings ++ [⟨7, 5, "BobShop", "", "", false⟩]
          nextId := 8 },
        ⟨"Account created successfully. Please sign in.", 6, 5⟩)
    ∧ signup (fun s => s) "alice" "pw2" "Other" exUserDB
      = .error ⟨400, "Username already exists"⟩ :=
  ⟨(c6_signup (fun s => s) exUserDB "bob" "pw" "BobShop").2 (by decide),
   (c6_signup (fun s => s) exUserDB "alice" "pw2" "Other").1 (by decide)⟩

/--
C6 counterexample: the duplicate-username rejection carries HTTP status 400
(BadRequest), not 409 (Conflict) as the spec's error taxonomy — which lists
Conflict separately from BadRequest — assigns to duplicate usernames.
-/
theorem c6_counterexample :
    signup (fun s => s) "alice" "pw" "Shop" exUserDB
      = .error ⟨400, "Username already exists"⟩
    ∧ (400 : Nat) ≠ 409 := by
  exact ⟨by decide, by decide⟩

/--
C7, amended.  `PUT /settings/{id}` (`update_settings`) pops `setupCompleted`
from the update dict, so two requests differing only in that field act
identically; but `POST /settings/setup` (`create_setup`) stores the
client-supplied `setupCompleted` verbatim — on both its insert and its update
path — so there `setupCompleted` **is** client-settable, refuting the frozen
claim for that endpoint (see the counterexample).
-/
theorem c7_setup_completed (businessId settingsId : Nat) (db : DB)
    (shopName ownerName upiId : String) (b1 b2 : Bool) :
    update_settings businessId settingsId ⟨shopName, ownerName, upiId, b1⟩ db
      = update_settings businessId settingsId ⟨shopName, ownerName, upiId, b2⟩ db
    ∧ ∀ req : SettingsReq,
        ((create_setup businessId req db).2).setupCompleted = req.setupCompleted
        ∧ (create_setup businessId req db).2
            ∈ (create_setup businessId req db).1.settings := by
  constructor
  · rfl
  · intro req
    unfold create_setup
    cases hfind : db.settings.find? (fun s => s.businessId == businessId) with
    | none =>
      constructor
      · rfl
      · simp
    | some s0 =>
      constructor
      · rfl
      · have hmem : s0 ∈ db.settings := List.mem_of_find?_eq_some hfind
        have hpred := List.find?_some hfind
        simp only
        apply List.mem_map.mpr
        exact ⟨s0, hmem, by rw [if_pos hpred]⟩

/-- A store with one settings row (business 7, `setupCompleted = true`). -/
def exSettingsDB : DB := ⟨[], [], [⟨3, 7, "S", "O", "U", true⟩], [], [], [], 9⟩

/--
C7 witness: two PUT requests differing only in `setupCompleted` produce
identical results, and a POST setup request's `setupCompleted` value is the
one stored.
-/
theorem c7_witness :
    update_settings 7 3 ⟨"S2", "O2", "U2", false⟩ exSettingsDB
      = update_settings 7 3 ⟨"S2", "O2", "U2", true⟩ exSettingsDB
    ∧ ((create_setup 7 ⟨"S2", "O2", "U2", true⟩ exSettingsDB).2).setupCompleted
        = true :=
  ⟨(c7_setup_completed 7 3 exSettingsDB "S2" "O2" "U2" false true).1,
   ((c7_setup_completed 7 3 exSettingsDB "S2" "O2" "U2" false true).2
     ⟨"S2", "O2", "U2", true⟩).1⟩

/--
C7 counterexample: two `POST /settings/setup` requests differing only in
`setupCompleted` leave the stored Settings row in different states — sending
`false` overwrites the stored `true` — so `setupCompleted` is client-settable
through that endpoint.
-/
theorem c7_counterexample :
    create_setup 7 ⟨"S", "O", "U", false⟩ exSettingsDB
      ≠ create_setup 7 ⟨"S", "O", "U", true⟩ exSettingsDB
    ∧ ((create_setup 7 ⟨"S", "O", "U", false⟩ exSettingsDB).1.settings.map
        (fun s => s.setupCompleted)) = [false]
    ∧ ((create_setup 7 ⟨"S", "O", "U", true⟩ exSettingsDB).1.settings.map
        (fun s => s.setupCompleted)) = [true] := by
  exact ⟨by decide, by decide, by decide⟩

/--
C8, amended.  Over any date range: `grossSales` is the sum of the per-group
gross totals, `totalReturns` is the sum of `returnTotal` over all in-range
returns, and `netSales = grossSales - totalReturns`.  The per-method clauses
hold **provided the in-range sales groups have pairwise distinct lowered
payment methods** (the aggregation groups by the raw, case-sensitive method
and only lowercases afterwards, so two case variants of one method each
subtract that method's full returns and overwrite each other's buckets — see
the counterexample): then each breakdown entry for a method is
`{gross, returns, net = gross - returns}` with returns looked up by lowered
method, `cashTotal` is the net of the cash group, and — when the in-range
return groups are also case-distinct — the returns figure for a method is the
sum of `returnTotal` over in-range returns whose lowered
`originalPaymentMethod` matches (null/empty folding into "other").  In
particular one cash sale of 200 and one cash return of 50 in range yield
`cashTotal = 150` and `netSales = 150` (see the witness).
-/
theorem c8_sales_summary (businessId : Nat) (sd ed : String) (db : DB)
    (hnd : ((salesGroups (inRangeSales businessId sd ed db)).map
      (fun g => lowerKey g.1)).Nodup) :
    (get_sales_summary businessId sd ed db).grossSales
      = ((salesGroups (inRangeSales businessId sd ed db)).map
          (fun g => g.2.1)).sum
    ∧ (get_sales_summary businessId sd ed db).totalReturns
      = ((inRangeReturns businessId sd ed db).map (fun r => r.returnTotal)).sum
    ∧ (get_sales_summary businessId sd ed db).netSales
      = (get_sales_summary businessId sd ed db).grossSales
        - (get_sales_summary businessId sd ed db).totalReturns
    ∧ (get_sales_summary businessId sd ed db).breakdown
      = (salesGroups (inRangeSales businessId sd ed db)).map
          (fun g => (lowerKey g.1,
            bEntry (returnsByMethod (retGroups
              (inRangeReturns businessId sd ed db))) g))
    ∧ (∀ g ∈ salesGroups (inRangeSales businessId sd ed db),
        lowerKey g.1 = "cash" →
        (get_sales_summary businessId sd ed db).cashTotal
          = g.2.1 - dictGetD (returnsByMethod (retGroups
              (inRangeReturns businessId sd ed db))) "cash" 0)
    ∧ (((retGroups (inRangeReturns businessId sd ed db)).map
          (fun g => lowerKey g.1)).Nodup →
        ∀ k, dictGetD (returnsByMethod (retGroups
            (inRangeReturns businessId sd ed db))) k 0
          = (((inRangeReturns businessId sd ed db).filter
              (fun r => lowerKey r.originalPaymentMethod == k)).map
                (fun r => r.returnTotal)).sum) := by
  refine ⟨summary_grossSales_eq _ _ _ _, summary_totalReturns_eq _ _ _ _,
    summary_netSales_eq _ _ _ _, summary_breakdown_eq _ _ _ _ hnd,
    ?_, ?_⟩
  · intro g hg hcash
    exact summary_cashTotal_of_mem _ _ _ _ g hnd hg hcash
  · intro hndr k
    exact returnsByMethod_lookup _ k hndr

/-- The spec's reporting scenario: one cash sale of 200 and one cash return
of 50 on the same date, in business 7. -/
def exScenarioDB : DB :=
  ⟨[], [], [], [],
   [⟨0, 7, [], 200, "cash", "2024-02-01", none, none, some 0, some 0, none⟩],
   [⟨1, 7, 0, "cash", [], 50, "", "return", none, "2024-02-01"⟩], 2⟩

/--
C8 witness: on the scenario store the summary reports `cashTotal = 150` and
`netSales = 150`, via the amended theorem's cash and net clauses.
-/
theorem c8_witness :
    (get_sales_summary 7 "2024-02-01" "2024-02-01" exScenarioDB).cashTotal = 150
    ∧ (get_sales_summary 7 "2024-02-01" "2024-02-01" exScenarioDB).netSales = 150 := by
  have h := c8_sales_summary 7 "2024-02-01" "2024-02-01" exScenarioDB (by decide)
  constructor
  · have hcash := h.2.2.2.2.1 ("cash", 200, 1) (by decide) (by decide)
    rw [hcash]
    decide
  · rw [h.2.2.1]
    decide

/-- Two case variants of the cash method (100 as "Cash", 200 as "cash") plus
one 50 return whose denormalized method is "Cash". -/
def exMixedCaseDB : DB :=
  ⟨[], [], [], [],
   [⟨0, 7, [], 100, "Cash", "2024-02-01", none, none, some 0, some 0, none⟩,
    ⟨1, 7, [], 200, "cash", "2024-02-01", none, none, some 0, some 0, none⟩],
   [⟨2, 7, 0, "Cash", [], 50, "", "return", none, "2024-02-01"⟩], 3⟩

/--
C8 counterexample: with case-insensitive method matching, the cash method's
in-range gross is 300 and its returns 50, so the frozen claim's
`net = gross - returnsForMethod` demands `cashTotal = 250`; the code groups
by the raw case-sensitive method, subtracts the full 50 of returns from each
of the two case-variant groups, and lets the later group overwrite the
bucket, reporting `cashTotal = 150`.
-/
theorem c8_counterexample :
    (get_sales_summary 7 "2024-02-01" "2024-02-01" exMixedCaseDB).cashTotal = 150
    ∧ (((inRangeSales 7 "2024-02-01" "2024-02-01" exMixedCaseDB).filter
        (fun s => pyLower s.paymentMethod == "cash")).map
          (fun s => s.total)).sum = 300
    ∧ (((inRangeReturns 7 "2024-02-01" "2024-02-01" exMixedCaseDB).filter
        (fun r => pyLower r.originalPaymentMethod == "cash")).map
          (fun r => r.returnTotal)).sum = 50
    ∧ (150 : ℚ) ≠ 300 - 50 := by
  exact ⟨by decide, by decide, by decide, by decide⟩

end SnapSell
